import Mathlib

/-!
Verification of the markdown ingestion orchestrator (upload_markdown.py).

The Python program is shallowly embedded: strings are lists of characters,
the local filesystem and the remote Dify gateway are input oracles, wall-clock
time is an oracle giving the value observed by each successive time query, and
the blocking sleeps of the source are reflected only through that clock.
Network calls and poll budgets are recorded in instrumented result records so
that theorems can speak about which calls each run performs.
-/

namespace UploadMarkdown

/-- Python strings are modelled as lists of characters. -/
abbrev Name : Type := List Char

/-- Python truthiness of a possibly missing string: present and non-empty. -/
def truthyName : Option Name → Bool
  | none => false
  | some s => !s.isEmpty

/-- Python truthiness of a possibly missing number: present and non-zero. -/
def truthyNat : Option Nat → Bool
  | none => false
  | some n => n != 0

/-- str.lower, character by character. -/
def lower (s : Name) : Name := s.map Char.toLower

/-- str.rfind for a single character: index of the last occurrence, -1 if absent. -/
def rfind (c : Char) : Name → Int
  | [] => -1
  | a :: as =>
    let r := rfind c as
    if 0 ≤ r then r + 1 else if a = c then 0 else -1

/-- Root part of os.path.splitext (posix): split at the last dot of the last
path component, unless every character before it in that component is a dot. -/
def splitextRoot (p : Name) : Name :=
  let sepIndex := rfind '/' p
  let dotIndex := rfind '.' p
  if sepIndex < dotIndex then
    let base := (p.drop (sepIndex + 1).toNat).take (dotIndex - (sepIndex + 1)).toNat
    if base.any (fun c => c ≠ '.') then p.take dotIndex.toNat else p
  else p

/-- os.path.join (posix) restricted to two components. -/
def osJoin (d n : Name) : Name :=
  if n.head? = some '/' then n
  else if d.isEmpty then d ++ n
  else if d.getLast? = some '/' then d ++ n
  else d ++ '/' :: n

/-- os.path.basename (posix): everything after the last separator. -/
def basename (p : Name) : Name := p.drop (rfind '/' p + 1).toNat

/-- Lexicographic comparison of strings by code point, as Python list.sort uses. -/
def lexLe : Name → Name → Bool
  | [], _ => true
  | _ :: _, [] => false
  | a :: as, b :: bs =>
    if a.toNat < b.toNat then true
    else if b.toNat < a.toNat then false
    else lexLe as bs

/-- The local filesystem oracle: os.path.isdir, os.listdir, os.path.isfile. -/
structure FileSystem where
  isDir : Name → Bool
  listing : Name → List Name
  isFile : Name → Bool

def mdSuffix : Name := ".md".toList

def markdownLongSuffix : Name := ".markdown".toList

/-- str.lower().endswith((".md", ".markdown")). -/
def hasMarkdownSuffix (s : Name) : Bool :=
  mdSuffix.isSuffixOf (lower s) || markdownLongSuffix.isSuffixOf (lower s)

/-- find_markdown_files: empty when not a directory; otherwise the regular
files under the directory whose (joined, lowered) path ends in a markdown
suffix, sorted. -/
def find_markdown_files (fs : FileSystem) (directory_path : Name) : List Name :=
  if !fs.isDir directory_path then []
  else
    let file_names :=
      ((fs.listing directory_path).map (osJoin directory_path)).filter fs.isFile
    let markdown_files := file_names.filter hasMarkdownSuffix
    List.insertionSort (fun a b => lexLe a b = true) markdown_files

/-- The spec's wording of File Discovery: regular files whose NAME ends,
case-insensitively, in a markdown suffix, sorted by full path.  Written from
the spec to be compared with find_markdown_files (refinement for C7). -/
def specMarkdownFiles (fs : FileSystem) (directory_path : Name) : List Name :=
  if !fs.isDir directory_path then []
  else
    List.insertionSort (fun a b => lexLe a b = true)
      ((((fs.listing directory_path).filter hasMarkdownSuffix).map
        (osJoin directory_path)).filter fs.isFile)

/-- One page response of the document listing endpoint: a transport or shape
failure, or the per-item name fields plus the has_more flag. -/
inductive PageResp where
  | fail : PageResp
  | page : List (Option Name) → Bool → PageResp

/-- The body of the per-page loop of fetch_existing_document_names: insert the
lowered name and the lowered extension-stripped name of every truthy item. -/
def addPageNames (acc : Finset Name) (names : List (Option Name)) : Finset Name :=
  names.foldl
    (fun a n? =>
      match n? with
      | none => a
      | some n =>
        if n.isEmpty then a
        else insert (splitextRoot (lower n)) (insert (lower n) a))
    acc

/-- The paging loop of fetch_existing_document_names: stop (keeping the
partial set) at the first failed page or when has_more is falsy. -/
def fetchLoop : List PageResp → Finset Name → Finset Name
  | [], acc => acc
  | .fail :: _, acc => acc
  | .page names hasMore :: rest, acc =>
    let acc2 := addPageNames acc names
    if hasMore then fetchLoop rest acc2 else acc2

/-- fetch_existing_document_names over the sequence of page responses the
server would give to successive list calls. -/
def fetch_existing_document_names (pages : List PageResp) : Finset Name :=
  fetchLoop pages ∅

/-- The name lists of the successfully fetched pages: the prefix of the
response sequence up to the first failure (exclusive) or the first
has_more = false page (inclusive). -/
def fetchedPages : List PageResp → List (List (Option Name))
  | [] => []
  | .fail :: _ => []
  | .page names hasMore :: rest =>
    names :: (if hasMore then fetchedPages rest else [])

/-- Number of list_documents calls the paging loop performs. -/
def pagesWalked : List PageResp → Nat
  | [] => 0
  | .fail :: _ => 1
  | .page _ hasMore :: rest => 1 + (if hasMore then pagesWalked rest else 0)

/-- One item of an indexing-status response body. -/
structure Item where
  indexing_status : Option Name
  completed_at : Option Nat
  error : Option Name
  completed_segments : Option Nat
  total_segments : Option Nat
deriving DecidableEq

def completedStatus : Name := "completed".toList

/-- An item carries a non-empty error (Python truthiness of item["error"]). -/
def itemErrored (it : Item) : Bool := truthyName it.error

/-- An item counts as completed: truthy completed_at, or status "completed". -/
def itemCompleted (it : Item) : Bool :=
  truthyNat it.completed_at || it.indexing_status == some completedStatus

/-- any_error of one poll iteration. -/
def anyError (items : List Item) : Bool := items.any itemErrored

/-- all_completed of one poll iteration. -/
def allCompleted (items : List Item) : Bool := items.all itemCompleted

/-- One indexing-status response: transport/shape failure, or the item list
(body.get("data") or []). -/
inductive SResp where
  | fail : SResp
  | ok : List Item → SResp

/-- Oracle for one wait_for_batch_completion call: the response to the i-th
status query, the wall-clock value observed by the i-th time query (index 0 is
the start_time reading), and a fuel bound on loop iterations (every concrete
execution performs finitely many). -/
structure PollEnv where
  resp : Nat → SResp
  clock : Nat → Int
  fuel : Nat

/-- Result of wait_for_batch_completion, instrumented with the number of
status queries performed. -/
structure PollResult where
  completed : Bool
  items : Option (List Item)
  queries : Nat
deriving DecidableEq

/-- The polling loop of wait_for_batch_completion.  Iteration i checks the
clock (reading i+1) against the deadline, issues status query i, and either
retries after a sleep (failure or empty data), returns on error or completion,
or retries while remembering the last item list.  Exhausted fuel behaves like
an expired deadline, which every finite execution eventually reaches. -/
def waitLoop (resp : Nat → SResp) (clock : Nat → Int) (deadline : Int) :
    Nat → Option (List Item) → Nat → PollResult
  | i, last, 0 => ⟨false, last, i⟩
  | i, last, fuel + 1 =>
    if clock (i + 1) < deadline then
      match resp i with
      | .fail => waitLoop resp clock deadline (i + 1) last fuel
      | .ok items =>
        if items.isEmpty then waitLoop resp clock deadline (i + 1) (some items) fuel
        else if anyError items then ⟨false, some items, i + 1⟩
        else if allCompleted items then ⟨true, some items, i + 1⟩
        else waitLoop resp clock deadline (i + 1) (some items) fuel
    else ⟨false, last, i⟩

/-- wait_for_batch_completion: poll until completed, errored, or the deadline
start_time + indexing_timeout_seconds passes; the sleeps between polls are
reflected in the clock oracle. -/
def wait_for_batch_completion (env : PollEnv) (indexing_timeout_seconds : Int) :
    PollResult :=
  waitLoop env.resp env.clock (env.clock 0 + indexing_timeout_seconds) 0 none env.fuel

/-- A create_document_from_file response: the success flag, and the document
id and batch id extracted from the body (absent when the body is not a dict). -/
structure CreateResp where
  ok : Bool
  doc : Option Name
  batch : Option Name

/-- Oracle for the processing of one file: the creation response, the first
poll phase's oracle, the delete_document success flag, the resubmission
response, and the second poll phase's oracle. -/
structure FileEnv where
  create : CreateResp
  poll1 : PollEnv
  deleteOk : Bool
  recreate : CreateResp
  poll2 : PollEnv

/-- Outcome of processing one file, instrumented: success-counter and
failure-counter increments, number of create_document_from_file calls, number
of delete_document calls, the budgets passed to successive
wait_for_batch_completion calls, and status queries issued. -/
structure FileOutcome where
  succ : Nat
  fail : Nat
  creates : Nat
  deletes : Nat
  polls : List Int
  queries : Nat
deriving DecidableEq

/-- The per-file body of main's upload loop (upload_markdown.py lines
315-411): dedup skip, creation, first poll with budget
min(indexing_timeout, fallback_timeout), and on non-completion the
delete-wait-resubmit-repoll fallback, whose second poll gets the full
indexing timeout. -/
def processFile (existing : Finset Name) (file_name : Name) (env : FileEnv)
    (indexing_timeout fallback_timeout_seconds : Int) : FileOutcome :=
  let base_no_ext := splitextRoot file_name
  let lower_file := lower file_name
  let lower_base := lower base_no_ext
  if lower_file ∈ existing ∨ lower_base ∈ existing then ⟨1, 0, 0, 0, [], 0⟩
  else if env.create.ok then
    if truthyName env.create.batch then
      let b1 := min indexing_timeout fallback_timeout_seconds
      let r1 := wait_for_batch_completion env.poll1 b1
      if r1.completed then ⟨1, 0, 1, 0, [b1], r1.queries⟩
      else if truthyName env.create.doc then
        if env.deleteOk then
          if env.recreate.ok then
            if truthyName env.recreate.batch then
              let r2 := wait_for_batch_completion env.poll2 indexing_timeout
              if r2.completed then ⟨1, 0, 2, 1, [b1, indexing_timeout], r1.queries + r2.queries⟩
              else ⟨1, 1, 2, 1, [b1, indexing_timeout], r1.queries + r2.queries⟩
            else ⟨1, 1, 2, 1, [b1], r1.queries⟩
          else ⟨1, 1, 2, 1, [b1], r1.queries⟩
        else ⟨1, 1, 1, 1, [b1], r1.queries⟩
      else ⟨1, 1, 1, 0, [b1], r1.queries⟩
    else ⟨1, 0, 1, 0, [], 0⟩
  else ⟨0, 1, 1, 0, [], 0⟩

/-- The orchestrator's configuration after argument parsing; option fields
follow argparse defaults (None when neither flag nor environment set them). -/
structure Config where
  dataset_id : Option Name
  api_key : Option Name
  api_base : Option Name
  dir : Name
  copy_missing_from_output : Bool
  copy_missing_only : Bool
  indexing_timeout : Int
  fallback_timeout_seconds : Int

/-- The environment of one whole run: the filesystem before and after the
copy-preparation phase (the latter an oracle for that phase's local effects),
the page responses seen by the copy phase's inventory fetch and by the main
dedup fetch, and the per-file gateway oracle keyed by file path. -/
structure World where
  fs : FileSystem
  fsAfterCopy : FileSystem
  copyPages : List PageResp
  listPages : List PageResp
  fileEnv : Name → FileEnv

/-- Result of a whole run, instrumented with the counters of the final
summary line and the number of gateway calls performed. -/
structure RunResult where
  exitCode : Int
  succ : Nat
  fail : Nat
  total : Nat
  netCalls : Nat
deriving DecidableEq

/-- The required-configuration check of main (lines 259-267). -/
def missingConfig (cfg : Config) : Bool :=
  !truthyName cfg.dataset_id || !truthyName cfg.api_key || !truthyName cfg.api_base

/-- The filesystem the upload loop sees: after the copy phase when either
copy flag is set, untouched otherwise. -/
def effectiveFs (cfg : Config) (w : World) : FileSystem :=
  if cfg.copy_missing_from_output || cfg.copy_missing_only then w.fsAfterCopy else w.fs

/-- The candidate files the upload loop iterates: none when configuration is
missing or in copy-only mode, else the discovered markdown files. -/
def processedFiles (cfg : Config) (w : World) : List Name :=
  if missingConfig cfg then []
  else if cfg.copy_missing_only then []
  else find_markdown_files (effectiveFs cfg w) cfg.dir

/-- The per-file outcomes of the upload loop, in processing order. -/
def processedOutcomes (cfg : Config) (w : World) : List FileOutcome :=
  (processedFiles cfg w).map fun p =>
    processFile (fetch_existing_document_names w.listPages) (basename p)
      (w.fileEnv p) cfg.indexing_timeout cfg.fallback_timeout_seconds

/-- main: configuration check (exit 2 before any gateway call), optional
copy phase, file discovery, dedup fetch, sequential upload loop, and the
final exit code 0 or 1 from the failure counter. -/
def mainRun (cfg : Config) (w : World) : RunResult :=
  if missingConfig cfg then ⟨2, 0, 0, 0, 0⟩
  else
    let copyFlag := cfg.copy_missing_from_output || cfg.copy_missing_only
    let copyCalls := if copyFlag then pagesWalked w.copyPages else 0
    if cfg.copy_missing_only then ⟨0, 0, 0, 0, copyCalls⟩
    else
      let files := processedFiles cfg w
      if files.isEmpty then ⟨0, 0, 0, 0, copyCalls⟩
      else
        let outcomes := processedOutcomes cfg w
        let succ := (outcomes.map FileOutcome.succ).sum
        let fail := (outcomes.map FileOutcome.fail).sum
        let calls := copyCalls + pagesWalked w.listPages +
          (outcomes.map fun o => o.creates + o.deletes + o.queries).sum
        ⟨if fail = 0 then 0 else 1, succ, fail, files.length, calls⟩

/-! ### Shared helper definitions and lemmas -/

def dummyPollEnv : PollEnv := ⟨fun _ => .fail, fun _ => 0, 0⟩

def dummyFileEnv : FileEnv :=
  ⟨⟨false, none, none⟩, dummyPollEnv, false, ⟨false, none, none⟩, dummyPollEnv⟩

lemma truthyName_eq_true_iff (o : Option Name) :
    truthyName o = true ↔ ∃ s, o = some s ∧ s ≠ [] := by
  cases o <;> simp [truthyName]

lemma anyError_eq_true_iff (items : List Item) :
    anyError items = true ↔ ∃ it ∈ items, ∃ e, it.error = some e ∧ e ≠ [] := by
  simp only [anyError, List.any_eq_true, itemErrored, truthyName_eq_true_iff]

lemma allCompleted_eq_true_iff (items : List Item) :
    allCompleted items = true ↔
      ∀ it ∈ items, truthyNat it.completed_at = true ∨
        it.indexing_status = some completedStatus := by
  simp only [allCompleted, List.all_eq_true, itemCompleted, Bool.or_eq_true, beq_iff_eq]

/-! ### C10: a non-positive budget exhausts the deadline at entry -/

/-- C10: when wait_for_batch_completion is called with a timeout budget at
most zero (and the wall clock has not gone backwards between its first two
readings), it issues no status query at all and returns not-completed with no
item list. -/
theorem c10_nonpositive_timeout (env : PollEnv) (t : Int)
    (ht : t ≤ 0) (hclock : env.clock 0 ≤ env.clock 1) :
    wait_for_batch_completion env t = ⟨false, none, 0⟩ := by
  unfold wait_for_batch_completion
  cases hf : env.fuel with
  | zero => rfl
  | succ n =>
    have h1 : env.clock (0 + 1) = env.clock 1 := rfl
    have hlt : ¬ env.clock (0 + 1) < env.clock 0 + t := by
      rw [h1]; omega
    rw [waitLoop, if_neg hlt]

/-- Witness for C10 at a concrete environment. -/
theorem c10_witness :
    (-3 : Int) ≤ 0 ∧
      wait_for_batch_completion ⟨fun _ => .fail, fun _ => 0, 3⟩ (-3) = ⟨false, none, 0⟩ :=
  ⟨by decide, c10_nonpositive_timeout ⟨fun _ => .fail, fun _ => 0, 3⟩ (-3) (by decide) (by decide)⟩

/-! ### C3: the decision of one poll iteration on a non-empty item list -/

/-- C3: in any iteration of the polling loop that is still within its
deadline and observes a non-empty item list, the loop returns ERRORED
(not completed, with the items) as soon as any item carries a non-empty
error, regardless of the other items; otherwise it returns COMPLETED
(completed, with the items) exactly when every item has a truthy completion
timestamp or status "completed"; otherwise it stays waiting and polls
again. -/
theorem c3_iteration_decision (resp : Nat → SResp) (clock : Nat → Int)
    (deadline : Int) (i : Nat) (last : Option (List Item)) (fuel : Nat)
    (items : List Item)
    (htime : clock (i + 1) < deadline) (hresp : resp i = .ok items)
    (hne : items ≠ []) :
    ((∃ it ∈ items, ∃ e, it.error = some e ∧ e ≠ []) →
        waitLoop resp clock deadline i last (fuel + 1) = ⟨false, some items, i + 1⟩) ∧
      ((¬ ∃ it ∈ items, ∃ e, it.error = some e ∧ e ≠ []) →
        ((∀ it ∈ items, truthyNat it.completed_at = true ∨
              it.indexing_status = some completedStatus) →
            waitLoop resp clock deadline i last (fuel + 1) = ⟨true, some items, i + 1⟩) ∧
          ((¬ ∀ it ∈ items, truthyNat it.completed_at = true ∨
              it.indexing_status = some completedStatus) →
            waitLoop resp clock deadline i last (fuel + 1) =
              waitLoop resp clock deadline (i + 1) (some items) fuel)) := by
  have hstep : waitLoop resp clock deadline i last (fuel + 1) =
      if anyError items then ⟨false, some items, i + 1⟩
      else if allCompleted items then ⟨true, some items, i + 1⟩
      else waitLoop resp clock deadline (i + 1) (some items) fuel := by
    rw [waitLoop, if_pos htime, hresp]
    simp only [List.isEmpty_iff, if_neg hne]
  constructor
  · intro herr
    rw [hstep, if_pos ((anyError_eq_true_iff items).mpr herr)]
  · intro herr
    have hae : anyError items = false := by
      rw [← Bool.not_eq_true, anyError_eq_true_iff]
      exact herr
    constructor
    · intro hall
      rw [hstep, hae, if_neg (by simp), if_pos ((allCompleted_eq_true_iff items).mpr hall)]
    · intro hall
      have hac : allCompleted items = false := by
        rw [← Bool.not_eq_true, allCompleted_eq_true_iff]
        exact hall
      rw [hstep, hae, hac]
      simp

/-- Witness for C3 at a concrete iteration observing an errored item. -/
theorem c3_witness :
    waitLoop (fun _ => .ok [⟨none, none, some ['x'], none, none⟩]) (fun _ => 0) 1 0 none 1 =
      ⟨false, some [⟨none, none, some ['x'], none, none⟩], 1⟩ :=
  (c3_iteration_decision (fun _ => .ok [⟨none, none, some ['x'], none, none⟩])
      (fun _ => 0) 1 0 none 0 [⟨none, none, some ['x'], none, none⟩]
      (by decide) rfl (by decide)).1
    ⟨⟨none, none, some ['x'], none, none⟩, by simp, ['x'], rfl, by decide⟩

/-! ### C6: dedup skip — success with zero creation calls -/

/-- C6: a candidate file whose lower-cased name or lower-cased
extension-stripped name is in the pre-fetched set is recorded as a success
with no create_document_from_file call (and no other gateway call). -/
theorem c6_dedup_skip (existing : Finset Name) (fname : Name) (env : FileEnv)
    (T F : Int)
    (h : lower fname ∈ existing ∨ lower (splitextRoot fname) ∈ existing) :
    processFile existing fname env T F = ⟨1, 0, 0, 0, [], 0⟩ := by
  simp only [processFile]
  rw [if_pos h]

/-- Witness for C6: "Notes.md" against a set that lists "notes.md". -/
theorem c6_witness :
    processFile {"notes.md".toList} "Notes.md".toList dummyFileEnv 600 300 =
      ⟨1, 0, 0, 0, [], 0⟩ :=
  c6_dedup_skip {"notes.md".toList} "Notes.md".toList dummyFileEnv 600 300 (by decide)

/-! ### C4: the budgets handed to the two poller invocations -/

/-- C4: when a submission returns a truthy batch id, the first poller
invocation is given min(indexing timeout, fallback timeout), and if a second
poller invocation happens (after the fallback resubmission) it is given the
full indexing timeout; no other budgets are ever used. -/
theorem c4_poll_budgets (existing : Finset Name) (fname : Name) (env : FileEnv)
    (T F : Int)
    (hskip : ¬(lower fname ∈ existing ∨ lower (splitextRoot fname) ∈ existing))
    (hok : env.create.ok = true) (hbatch : truthyName env.create.batch = true) :
    (processFile existing fname env T F).polls = [min T F] ∨
      (processFile existing fname env T F).polls = [min T F, T] := by
  simp only [processFile]
  rw [if_neg hskip, if_pos hok, if_pos hbatch]
  generalize wait_for_batch_completion env.poll1 (min T F) = r1
  generalize wait_for_batch_completion env.poll2 T = r2
  repeat' split
  all_goals first | (left; rfl) | (right; rfl)

/-- Witness for C4 at a concrete environment whose first poll completes. -/
theorem c4_witness :
    (processFile ∅ "a.md".toList
        ⟨⟨true, none, some ['b']⟩,
          ⟨fun _ => .ok [⟨none, some 1, none, none, none⟩], fun _ => 0, 5⟩,
          false, ⟨false, none, none⟩, dummyPollEnv⟩ 600 300).polls = [min 600 300] ∨
      (processFile ∅ "a.md".toList
        ⟨⟨true, none, some ['b']⟩,
          ⟨fun _ => .ok [⟨none, some 1, none, none, none⟩], fun _ => 0, 5⟩,
          false, ⟨false, none, none⟩, dummyPollEnv⟩ 600 300).polls = [min 600 300, 600] :=
  c4_poll_budgets ∅ "a.md".toList
    ⟨⟨true, none, some ['b']⟩,
      ⟨fun _ => .ok [⟨none, some 1, none, none, none⟩], fun _ => 0, 5⟩,
      false, ⟨false, none, none⟩, dummyPollEnv⟩ 600 300 (by decide) rfl rfl

/-! ### C5: at most one fallback cycle per file -/

/-- C5: for every file, at most one delete_document call and at most two
creation calls are made; a resubmission (second creation call) happens only
when the original submission returned a truthy document id and the deletion
succeeded; and a resubmission that fails, returns no truthy batch id, or
whose second poll does not complete is a terminal failure with no further
delete-and-retry attempt. -/
theorem c5_single_fallback (existing : Finset Name) (fname : Name)
    (env : FileEnv) (T F : Int) :
    (processFile existing fname env T F).deletes ≤ 1 ∧
      (processFile existing fname env T F).creates ≤ 2 ∧
      ((processFile existing fname env T F).creates = 2 →
        truthyName env.create.doc = true ∧ env.deleteOk = true) ∧
      ((processFile existing fname env T F).creates = 2 ∧
          (env.recreate.ok = false ∨ truthyName env.recreate.batch = false ∨
            (wait_for_batch_completion env.poll2 T).completed = false) →
        (processFile existing fname env T F).fail = 1 ∧
          (processFile existing fname env T F).deletes = 1) := by
  simp only [processFile]
  generalize wait_for_batch_completion env.poll1 (min T F) = r1
  generalize wait_for_batch_completion env.poll2 T = r2
  repeat' split
  all_goals simp_all

/-- Witness for C5 at a concrete environment that runs a failing fallback. -/
theorem c5_witness :
    (processFile ∅ "a.md".toList
        ⟨⟨true, some ['d'], some ['b']⟩, dummyPollEnv, true, ⟨false, none, none⟩,
          dummyPollEnv⟩ 600 300).deletes ≤ 1 ∧
      (processFile ∅ "a.md".toList
        ⟨⟨true, some ['d'], some ['b']⟩, dummyPollEnv, true, ⟨false, none, none⟩,
          dummyPollEnv⟩ 600 300).creates ≤ 2 :=
  ⟨(c5_single_fallback ∅ "a.md".toList
      ⟨⟨true, some ['d'], some ['b']⟩, dummyPollEnv, true, ⟨false, none, none⟩,
        dummyPollEnv⟩ 600 300).1,
    (c5_single_fallback ∅ "a.md".toList
      ⟨⟨true, some ['d'], some ['b']⟩, dummyPollEnv, true, ⟨false, none, none⟩,
        dummyPollEnv⟩ 600 300).2.1⟩

/-! ### C1: an ERRORED first poll is not a terminal failure in the code -/

def errItem : Item := ⟨some "indexing".toList, none, some "boom".toList, none, none⟩

def doneItem : Item := ⟨some completedStatus, some 1, none, none, none⟩

def c1Env : FileEnv :=
  ⟨⟨true, some ['d'], some ['b']⟩,
    ⟨fun _ => .ok [errItem], fun _ => 0, 5⟩,
    true,
    ⟨true, none, some ['b']⟩,
    ⟨fun _ => .ok [doneItem], fun _ => 0, 5⟩⟩

/-- Counterexample to C1: a file whose first poll phase returns ERRORED (an
item with a non-empty error) is not recorded as a failure immediately — the
dispatcher runs the fallback cycle: delete_document is called, the file is
resubmitted, and here the file even ends as a success. -/
theorem c1_counterexample :
    (wait_for_batch_completion c1Env.poll1 (min 600 300)).completed = false ∧
      (wait_for_batch_completion c1Env.poll1 (min 600 300)).items = some [errItem] ∧
      anyError [errItem] = true ∧
      (processFile ∅ "a.md".toList c1Env 600 300).deletes = 1 ∧
      (processFile ∅ "a.md".toList c1Env 600 300).creates = 2 ∧
      (processFile ∅ "a.md".toList c1Env 600 300).fail = 0 := by
  decide

/-- C1 as amended: the dispatcher cannot distinguish ERRORED from TIMED_OUT
(the poller returns only a completion flag), so a first poll phase that
returns ERRORED is handed to the fallback path exactly like a timeout:
delete_document is called whenever a truthy document id is known, and the
file's outcome is the fallback's outcome. -/
theorem c1_errored_falls_back (existing : Finset Name) (fname : Name)
    (env : FileEnv) (T F : Int) (items : List Item)
    (hskip : ¬(lower fname ∈ existing ∨ lower (splitextRoot fname) ∈ existing))
    (hok : env.create.ok = true) (hbatch : truthyName env.create.batch = true)
    (hdoc : truthyName env.create.doc = true)
    (hcomp : (wait_for_batch_completion env.poll1 (min T F)).completed = false)
    (_hitems : (wait_for_batch_completion env.poll1 (min T F)).items = some items)
    (_herr : anyError items = true) :
    (processFile existing fname env T F).deletes = 1 ∧
      ((processFile existing fname env T F).fail = 0 ↔
        env.deleteOk = true ∧ env.recreate.ok = true ∧
          truthyName env.recreate.batch = true ∧
          (wait_for_batch_completion env.poll2 T).completed = true) := by
  simp only [processFile]
  rw [if_neg hskip, if_pos hok, if_pos hbatch, hcomp]
  simp only [Bool.false_eq_true, if_false]
  rw [if_pos hdoc]
  generalize wait_for_batch_completion env.poll2 T = r2
  repeat' split
  all_goals simp_all

/-- Witness for the amended C1 at the counterexample's environment. -/
theorem c1_amended_witness :
    (processFile ∅ "a.md".toList c1Env 600 300).deletes = 1 ∧
      ((processFile ∅ "a.md".toList c1Env 600 300).fail = 0 ↔
        c1Env.deleteOk = true ∧ c1Env.recreate.ok = true ∧
          truthyName c1Env.recreate.batch = true ∧
          (wait_for_batch_completion c1Env.poll2 600).completed = true) :=
  c1_errored_falls_back ∅ "a.md".toList c1Env 600 300 [errItem] (by decide)
    (by decide) (by decide) (by decide) (by decide) (by decide) (by decide)

/-! ### C2: a created-then-failed file is counted in both counters -/

def stuckItem : Item := ⟨some "indexing".toList, none, none, none, none⟩

def c2FileEnv : FileEnv :=
  ⟨⟨true, some ['d'], some ['b']⟩,
    ⟨fun _ => .ok [stuckItem], fun n => 200 * n, 5⟩,
    false,
    ⟨false, none, none⟩,
    dummyPollEnv⟩

def c2Fs : FileSystem := ⟨fun _ => true, fun _ => ["a.md".toList], fun _ => true⟩

def c2Cfg : Config := ⟨some ['x'], some ['k'], some ['u'], "m".toList, false, false, 600, 300⟩

def c2World : World := ⟨c2Fs, c2Fs, [], [], fun _ => c2FileEnv⟩

/-- C2 fails on the code: a run over a single file whose creation succeeds,
whose indexing never completes within the fallback window, and whose deletion
fails, increments the success counter (at creation time) and the failure
counter (at fallback failure), so the summary reads Success: 1, Failed: 1,
Total: 1 — success count plus failure count exceeds the number of files. -/
theorem c2_counts_both :
    mainRun c2Cfg c2World = ⟨1, 1, 1, 1, 3⟩ ∧
      (mainRun c2Cfg c2World).succ + (mainRun c2Cfg c2World).fail ≠
        (mainRun c2Cfg c2World).total := by
  decide

/-! ### C9: the orchestrator's exit code -/

/-- C9: with dataset id, API key, or API base missing (falsy), the run exits
with code 2 having made no gateway call; otherwise it exits 0 exactly when no
processed file ended in failure (including the nothing-to-do cases, where no
file is processed) and 1 exactly when at least one processed file ended in
failure. -/
theorem c9_exit_codes (cfg : Config) (w : World) :
    ((truthyName cfg.dataset_id = false ∨ truthyName cfg.api_key = false ∨
        truthyName cfg.api_base = false) →
      mainRun cfg w = ⟨2, 0, 0, 0, 0⟩) ∧
      (truthyName cfg.dataset_id = true ∧ truthyName cfg.api_key = true ∧
          truthyName cfg.api_base = true →
        ((mainRun cfg w).exitCode = 0 ↔ ∀ o ∈ processedOutcomes cfg w, o.fail = 0) ∧
          ((mainRun cfg w).exitCode = 1 ↔ ∃ o ∈ processedOutcomes cfg w, o.fail ≠ 0)) := by
  constructor
  · intro h
    have hm : missingConfig cfg = true := by
      unfold missingConfig
      rcases h with h | h | h <;> simp [h]
    simp [mainRun, hm]
  · rintro ⟨h1, h2, h3⟩
    have hm : missingConfig cfg = false := by
      unfold missingConfig
      simp [h1, h2, h3]
    by_cases hco : cfg.copy_missing_only = true
    · have hpf : processedFiles cfg w = [] := by simp [processedFiles, hm, hco]
      have hpo : processedOutcomes cfg w = [] := by simp [processedOutcomes, hpf]
      simp [mainRun, hm, hco, hpo]
    · have hco' : cfg.copy_missing_only = false := by simpa using hco
      by_cases hfe : (processedFiles cfg w).isEmpty = true
      · have hpo : processedOutcomes cfg w = [] := by
          have : processedFiles cfg w = [] := by simpa [List.isEmpty_iff] using hfe
          simp [processedOutcomes, this]
        simp [mainRun, hm, hco', hfe, hpo]
      · have hfe' : (processedFiles cfg w).isEmpty = false := by simpa using hfe
        have hmain : (mainRun cfg w).exitCode =
            if ((processedOutcomes cfg w).map FileOutcome.fail).sum = 0 then 0 else 1 := by
          simp [mainRun, hm, hco', hfe']
        have hsum : (((processedOutcomes cfg w).map FileOutcome.fail).sum = 0) ↔
            ∀ o ∈ processedOutcomes cfg w, o.fail = 0 := by
          rw [List.sum_eq_zero_iff]
          simp
        rw [hmain]
        by_cases hz : ((processedOutcomes cfg w).map FileOutcome.fail).sum = 0
        · rw [if_pos hz]
          refine ⟨iff_of_true rfl (hsum.mp hz), ?_, ?_⟩
          · intro h01
            exact absurd h01 (by decide)
          · rintro ⟨o, ho, hne⟩
            exact absurd (hsum.mp hz o ho) hne
        · rw [if_neg hz]
          refine ⟨⟨fun h10 => absurd h10 (by decide), fun hall => absurd (hsum.mpr hall) hz⟩,
            fun _ => ?_, fun _ => rfl⟩
          by_contra hex
          push_neg at hex
          exact hz (hsum.mpr hex)

def emptyFs : FileSystem := ⟨fun _ => false, fun _ => [], fun _ => false⟩

def c9World : World := ⟨emptyFs, emptyFs, [], [], fun _ => dummyFileEnv⟩

def c9CfgMissing : Config := ⟨none, some ['k'], some ['u'], [], false, false, 600, 300⟩

def c9CfgOk : Config := ⟨some ['x'], some ['k'], some ['u'], [], false, false, 600, 300⟩

/-- Witness for C9: a run with the dataset id missing exits 2 with no
gateway call; a fully configured run over an empty directory exits 0. -/
theorem c9_witness :
    mainRun c9CfgMissing c9World = ⟨2, 0, 0, 0, 0⟩ ∧
      ((mainRun c9CfgOk c9World).exitCode = 0 ↔
        ∀ o ∈ processedOutcomes c9CfgOk c9World, o.fail = 0) :=
  ⟨(c9_exit_codes c9CfgMissing c9World).1 (Or.inl (by decide)),
    ((c9_exit_codes c9CfgOk c9World).2 ⟨by decide, by decide, by decide⟩).1⟩

/-! ### C8: the inventory set built by fetch_existing_document_names -/

lemma mem_addPageNames (tl : List (Option Name)) (acc : Finset Name) (x : Name) :
    x ∈ addPageNames acc tl ↔
      x ∈ acc ∨ ∃ n? ∈ tl, ∃ n, n? = some n ∧ n ≠ [] ∧
        (x = lower n ∨ x = splitextRoot (lower n)) := by
  induction tl generalizing acc with
  | nil => simp [addPageNames]
  | cons hd tl ih =>
    cases hd with
    | none =>
      have e : addPageNames acc (none :: tl) = addPageNames acc tl := rfl
      rw [e, ih]
      simp [List.exists_mem_cons_iff]
    | some n =>
      by_cases hn : n.isEmpty = true
      · have hn' : n = [] := by simpa [List.isEmpty_iff] using hn
        subst hn'
        have e : addPageNames acc (some [] :: tl) = addPageNames acc tl := rfl
        rw [e, ih]
        simp [List.exists_mem_cons_iff]
      · have hn' : n ≠ [] := by simpa [List.isEmpty_iff] using hn
        have e : addPageNames acc (some n :: tl) =
            addPageNames
              (if n.isEmpty then acc
                else insert (splitextRoot (lower n)) (insert (lower n) acc)) tl := rfl
        rw [e, if_neg hn, ih]
        constructor
        · rintro (hmem | ⟨n?, hn?, m, hm, hme, hx⟩)
          · rcases Finset.mem_insert.mp hmem with h | hmem2
            · exact Or.inr ⟨some n, List.mem_cons_self _ _, n, rfl, hn', Or.inr h⟩
            · rcases Finset.mem_insert.mp hmem2 with h | h
              · exact Or.inr ⟨some n, List.mem_cons_self _ _, n, rfl, hn', Or.inl h⟩
              · exact Or.inl h
          · exact Or.inr ⟨n?, List.mem_cons_of_mem _ hn?, m, hm, hme, hx⟩
        · rintro (hmem | ⟨n?, hn?, m, hm, hme, hx⟩)
          · exact Or.inl (Finset.mem_insert_of_mem (Finset.mem_insert_of_mem hmem))
          · rcases List.mem_cons.mp hn? with h | h
            · subst h
              cases Option.some.inj hm
              rcases hx with hx | hx
              · exact Or.inl (Finset.mem_insert.mpr (Or.inr (Finset.mem_insert.mpr (Or.inl hx))))
              · exact Or.inl (Finset.mem_insert.mpr (Or.inl hx))
            · exact Or.inr ⟨n?, h, m, hm, hme, hx⟩

lemma mem_fetchLoop (pages : List PageResp) (acc : Finset Name) (x : Name) :
    x ∈ fetchLoop pages acc ↔
      x ∈ acc ∨ ∃ ns ∈ fetchedPages pages, ∃ n? ∈ ns, ∃ n, n? = some n ∧ n ≠ [] ∧
        (x = lower n ∨ x = splitextRoot (lower n)) := by
  induction pages generalizing acc with
  | nil => simp [fetchLoop, fetchedPages]
  | cons p rest ih =>
    cases p with
    | fail => simp [fetchLoop, fetchedPages]
    | page ns more =>
      cases more with
      | true =>
        have e1 : fetchLoop (PageResp.page ns true :: rest) acc =
            fetchLoop rest (addPageNames acc ns) := rfl
        have e2 : fetchedPages (PageResp.page ns true :: rest) =
            ns :: fetchedPages rest := rfl
        rw [e1, e2, ih, mem_addPageNames]
        rw [List.exists_mem_cons_iff]
        exact or_assoc
      | false =>
        have e1 : fetchLoop (PageResp.page ns false :: rest) acc =
            addPageNames acc ns := rfl
        have e2 : fetchedPages (PageResp.page ns false :: rest) = [ns] := rfl
        rw [e1, e2, mem_addPageNames]
        simp [List.exists_mem_cons_iff]

/-- C8: the inventory set contains exactly, for each truthy document name on
the successfully fetched pages (the prefix of the page responses up to the
first failed or malformed response, cut at the first has_more = false page),
its lower-cased form and its lower-cased extension-stripped form; a failed
response just ends paging, leaving the partial set. -/
theorem c8_inventory (pages : List PageResp) (x : Name) :
    x ∈ fetch_existing_document_names pages ↔
      ∃ ns ∈ fetchedPages pages, ∃ n? ∈ ns, ∃ n, n? = some n ∧ n ≠ [] ∧
        (x = lower n ∨ x = splitextRoot (lower n)) := by
  rw [fetch_existing_document_names, mem_fetchLoop]
  simp

/-! ### C7: File Discovery -/

lemma lexLe_trans : ∀ a b c : Name, lexLe a b = true → lexLe b c = true → lexLe a c = true := by
  intro a
  induction a with
  | nil => intro b c _ _; rfl
  | cons x xs ih =>
    intro b c hab hbc
    cases b with
    | nil => simp [lexLe] at hab
    | cons y ys =>
      cases c with
      | nil => simp [lexLe] at hbc
      | cons z zs =>
        simp only [lexLe] at hab hbc ⊢
        by_cases h1 : x.toNat < y.toNat
        · by_cases h2 : y.toNat < z.toNat
          · rw [if_pos (by omega)]
          · rw [if_neg h2] at hbc
            by_cases h3 : z.toNat < y.toNat
            · rw [if_pos h3] at hbc
              exact absurd hbc (by simp)
            · rw [if_pos (by omega)]
        · rw [if_neg h1] at hab
          by_cases h1' : y.toNat < x.toNat
          · rw [if_pos h1'] at hab
            exact absurd hab (by simp)
          · rw [if_neg h1'] at hab
            by_cases h2 : y.toNat < z.toNat
            · rw [if_pos (by omega)]
            · rw [if_neg h2] at hbc
              by_cases h3 : z.toNat < y.toNat
              · rw [if_pos h3] at hbc
                exact absurd hbc (by simp)
              · rw [if_neg h3] at hbc
                rw [if_neg (by omega), if_neg (by omega)]
                exact ih ys zs hab hbc

lemma lexLe_total : ∀ a b : Name, lexLe a b = true ∨ lexLe b a = true := by
  intro a
  induction a with
  | nil => intro b; exact Or.inl rfl
  | cons x xs ih =>
    intro b
    cases b with
    | nil => exact Or.inr rfl
    | cons y ys =>
      by_cases h1 : x.toNat < y.toNat
      · exact Or.inl (by simp only [lexLe]; rw [if_pos h1])
      · by_cases h2 : y.toNat < x.toNat
        · exact Or.inr (by simp only [lexLe]; rw [if_pos h2])
        · rcases ih ys with h | h
          · exact Or.inl (by simp only [lexLe]; rw [if_neg h1, if_neg h2]; exact h)
          · exact Or.inr (by simp only [lexLe]; rw [if_neg h2, if_neg h1]; exact h)

lemma suffix_append_sep {s : Name} (hs : '/' ∉ s) (a b : Name) :
    s <:+ a ++ '/' :: b ↔ s <:+ b := by
  constructor
  · intro h
    rcases List.suffix_or_suffix_of_suffix h (List.suffix_append a ('/' :: b)) with h1 | h2
    · rcases List.suffix_cons_iff.mp h1 with h3 | h3
      · subst h3
        exact absurd (List.mem_cons_self _ _) hs
      · exact h3
    · exact absurd (h2.subset (List.mem_cons_self '/' b)) hs
  · intro h
    exact h.trans ((List.suffix_cons '/' b).trans (List.suffix_append a ('/' :: b)))

lemma lower_sep_append (d n : Name) : lower (d ++ '/' :: n) = lower d ++ '/' :: lower n := by
  have h : Char.toLower '/' = '/' := by decide
  simp [lower, h]

lemma suffix_lower_osJoin {s : Name} (hs : '/' ∉ s) (d n : Name) :
    (s <:+ lower (osJoin d n)) ↔ s <:+ lower n := by
  unfold osJoin
  by_cases h1 : n.head? = some '/'
  · rw [if_pos h1]
  · rw [if_neg h1]
    by_cases h2 : d.isEmpty = true
    · have hd : d = [] := List.isEmpty_iff.mp h2
      rw [if_pos h2, hd]
      simp
    · rw [if_neg h2]
      by_cases h3 : d.getLast? = some '/'
      · rw [if_pos h3]
        have hd : d ≠ [] := by
          intro hd
          rw [hd] at h3
          simp at h3
        have hgl : d.getLast hd = '/' := by
          have hq := List.getLast?_eq_getLast d hd
          rw [h3] at hq
          exact (Option.some.inj hq).symm
        have hsplit : d.dropLast ++ ['/'] = d := by
          rw [← hgl]
          exact List.dropLast_append_getLast hd
        have hrw : d ++ n = d.dropLast ++ '/' :: n := by
          rw [← hsplit]
          simp
        rw [hrw, lower_sep_append]
        exact suffix_append_sep hs _ _
      · rw [if_neg h3, lower_sep_append]
        exact suffix_append_sep hs _ _

lemma hasMarkdownSuffix_osJoin (d n : Name) :
    hasMarkdownSuffix (osJoin d n) = hasMarkdownSuffix n := by
  unfold hasMarkdownSuffix
  have h1 : mdSuffix.isSuffixOf (lower (osJoin d n)) = mdSuffix.isSuffixOf (lower n) := by
    rw [Bool.eq_iff_iff, List.isSuffixOf_iff_suffix, List.isSuffixOf_iff_suffix]
    exact suffix_lower_osJoin (by decide) d n
  have h2 : markdownLongSuffix.isSuffixOf (lower (osJoin d n)) =
      markdownLongSuffix.isSuffixOf (lower n) := by
    rw [Bool.eq_iff_iff, List.isSuffixOf_iff_suffix, List.isSuffixOf_iff_suffix]
    exact suffix_lower_osJoin (by decide) d n
  rw [h1, h2]

lemma find_eq_spec (fs : FileSystem) (dir : Name) :
    find_markdown_files fs dir = specMarkdownFiles fs dir := by
  by_cases h : fs.isDir dir = true
  · simp only [find_markdown_files, specMarkdownFiles, h, Bool.not_true, Bool.false_eq_true,
      if_false]
    congr 1
    rw [List.filter_filter, List.filter_map, List.filter_map, List.filter_filter]
    congr 1
    apply List.filter_congr
    intro x _
    simp only [Function.comp_apply]
    rw [hasMarkdownSuffix_osJoin]
    exact Bool.and_comm _ _
  · have h' : fs.isDir dir = false := by simpa using h
    simp only [find_markdown_files, specMarkdownFiles, h', Bool.not_false, if_true]

/-- C7: find_markdown_files returns the empty list when the path is not a
directory; otherwise it agrees with the spec's description (filter by NAME
suffix, then join and keep regular files, then sort), its output is sorted
lexicographically by full path, and its members are exactly the joined paths
of listed names that are regular files with a markdown-suffixed name. -/
theorem c7_file_discovery (fs : FileSystem) (dir : Name) :
    (fs.isDir dir = false → find_markdown_files fs dir = []) ∧
      find_markdown_files fs dir = specMarkdownFiles fs dir ∧
      List.Sorted (fun a b => lexLe a b = true) (find_markdown_files fs dir) ∧
      ∀ p, p ∈ find_markdown_files fs dir ↔
        fs.isDir dir = true ∧ ∃ n ∈ fs.listing dir,
          p = osJoin dir n ∧ fs.isFile p = true ∧ hasMarkdownSuffix n = true := by
  haveI : IsTrans Name (fun a b => lexLe a b = true) := ⟨lexLe_trans⟩
  haveI : IsTotal Name (fun a b => lexLe a b = true) := ⟨lexLe_total⟩
  refine ⟨?_, find_eq_spec fs dir, ?_, ?_⟩
  · intro h
    simp only [find_markdown_files, h, Bool.not_false, if_true]
  · by_cases h : fs.isDir dir = true
    · simp only [find_markdown_files, h, Bool.not_true, Bool.false_eq_true, if_false]
      exact List.sorted_insertionSort _ _
    · have h' : fs.isDir dir = false := by simpa using h
      simp only [find_markdown_files, h', Bool.not_false, if_true]
      exact List.Pairwise.nil
  · intro p
    by_cases h : fs.isDir dir = true
    · have hcond : ¬((!fs.isDir dir) = true) := by simp [h]
      simp only [find_markdown_files]
      rw [if_neg hcond, (List.perm_insertionSort _ _).mem_iff]
      simp only [List.mem_filter, List.mem_map]
      constructor
      · rintro ⟨⟨⟨nn, hnn, rfl⟩, hfile⟩, hmd⟩
        exact ⟨h, nn, hnn, rfl, hfile, by rwa [hasMarkdownSuffix_osJoin] at hmd⟩
      · rintro ⟨-, nn, hnn, rfl, hfile, hmd⟩
        exact ⟨⟨⟨nn, hnn, rfl⟩, hfile⟩, by rwa [hasMarkdownSuffix_osJoin]⟩
    · have h' : fs.isDir dir = false := by simpa using h
      have hcond : (!fs.isDir dir) = true := by simp [h']
      simp only [find_markdown_files]
      rw [if_pos hcond]
      simp only [List.not_mem_nil, false_iff]
      rintro ⟨hdir, -⟩
      rw [hdir] at h'
      cases h'

def c7Fs : FileSystem :=
  ⟨fun _ => true, fun _ => ["b.md".toList, "A.MD".toList, "c.txt".toList], fun _ => true⟩

/-- Witness for C7: a non-directory yields the empty list, and on a concrete
directory the code function agrees with the spec-worded one. -/
theorem c7_witness :
    find_markdown_files emptyFs ['m'] = [] ∧
      find_markdown_files c7Fs ['m'] = specMarkdownFiles c7Fs ['m'] :=
  ⟨(c7_file_discovery emptyFs ['m']).1 rfl, (c7_file_discovery c7Fs ['m']).2.1⟩

end UploadMarkdown
